import Mathlib

/-!
Verification of the GoldTarget stock-screening backend.

The development shallowly embeds the two core components of the repository:

* `TechnicalIndicators` (src/backend/data/stock_indicators.py) — pure
  pandas transforms over per-symbol OHLCV columns.  A pandas column is
  embedded as `Series K = List (Option K)` over a linear ordered field
  `K`: `none` stands for a missing value (pandas `NaN`).  The claims are
  settled at `K = ℚ` so that every definition is executable; the one
  operation that genuinely needs real numbers (the square root inside the
  Bollinger standard deviation) is instantiated at `K = ℝ`.

* `StockFilter` (src/backend/models/stock_filter.py) — SQL-backed
  predicate evaluators over two tables, embedded as lists of records
  (`daily_data`, `technical_indicators`).  SQL `NULL` is `Option.none`;
  a comparison with `NULL` is not satisfied, which the `oLt` helper
  mirrors.  `Database.execute` (src/backend/models/database.py) catches
  every exception and returns `None`, and each evaluator turns a `None`
  result into `[]`, so the evaluators are total functions into
  `List String`.
-/

namespace GoldTarget

/-- A pandas column: one optional value per row, `none` = `NaN`. -/
abbrev Series (K : Type) : Type := List (Option K)

section SeriesOps

variable {K : Type} [LinearOrderedField K]

/-- All-or-nothing sequencing of a window: `some` exactly when every cell
of the window holds a value, as required by pandas `rolling` with the
default `min_periods = window`. -/
def seqOpt : List (Option K) → Option (List K)
  | [] => some []
  | none :: _ => none
  | some x :: xs => (seqOpt xs).map (x :: ·)

/-- The trailing window of width `n` ending at position `i` (positions
`i+1-n … i` of `xs`). -/
def windowAt (n : ℕ) (xs : Series K) (i : ℕ) : Series K :=
  (xs.take (i + 1)).drop (i + 1 - n)

/-- `Series.rolling(window=n).mean()`: defined at position `i` iff
`i ≥ n-1` and the whole trailing window is present, in which case it is
the arithmetic mean of the window. -/
def rollingMean (n : ℕ) (xs : Series K) : Series K :=
  (List.range xs.length).map fun i =>
    if n ≤ i + 1 then
      match seqOpt (windowAt n xs i) with
      | some ws => some (ws.sum / (n : K))
      | none => none
    else none

/-- `Series.rolling(window=n).min()` under the same definedness rule. -/
def rollingMin (n : ℕ) (xs : Series K) : Series K :=
  (List.range xs.length).map fun i =>
    if n ≤ i + 1 then
      match seqOpt (windowAt n xs i) with
      | some (w :: ws) => some (ws.foldl min w)
      | _ => none
    else none

/-- `Series.rolling(window=n).max()` under the same definedness rule. -/
def rollingMax (n : ℕ) (xs : Series K) : Series K :=
  (List.range xs.length).map fun i =>
    if n ≤ i + 1 then
      match seqOpt (windowAt n xs i) with
      | some (w :: ws) => some (ws.foldl max w)
      | _ => none
    else none

/-- Tail of the `ewm(adjust=False)` recurrence: given the mean `acc` so
far, each present value `x` updates it to `(1-α)·acc + α·x`; a missing
value leaves the mean unchanged and re-emits it (pandas carries the last
mean across a `NaN`). -/
def ewmGo (α : K) (acc : K) : Series K → Series K
  | [] => []
  | none :: xs => some acc :: ewmGo α acc xs
  | some x :: xs =>
    let y := (1 - α) * acc + α * x
    some y :: ewmGo α y xs

/-- `Series.ewm(alpha=α, adjust=False).mean()`: leading missing values
stay missing, the first present value seeds the mean, and thereafter the
recurrence `y = (1-α)·y' + α·x` runs. -/
def ewmSeries (α : K) : Series K → Series K
  | [] => []
  | none :: xs => none :: ewmSeries α xs
  | some x :: xs => some x :: ewmGo α x xs

/-- `Series.diff()`: position 0 is missing, position `i+1` holds
`x[i+1] - x[i]` when both cells are present. -/
def diffSeries (s : Series K) : Series K :=
  (List.range s.length).map fun i =>
    match i with
    | 0 => none
    | j + 1 =>
      match (s[j + 1]?).join, (s[j]?).join with
      | some a, some b => some (a - b)
      | _, _ => none

/-- Pointwise subtraction of two columns; `NaN` propagates. -/
def oSub (a b : Option K) : Option K :=
  match a, b with
  | some x, some y => some (x - y)
  | _, _ => none

end SeriesOps

/-! ## The indicator engine (src/backend/data/stock_indicators.py)

A pandas `DataFrame` is an ordered association list from column name to
column.  `setCol` mirrors `result[name] = series` (overwrite in place or
append a new column at the end); `getCol` mirrors `result[name]`. -/

abbrev DataFrame (K : Type) : Type := List (String × Series K)

section DataFrameOps

variable {K : Type} [LinearOrderedField K]

/-- `name in df.columns`. -/
def hasCol (df : DataFrame K) (c : String) : Bool :=
  df.any (fun p => p.1 == c)

/-- `df[name]`; the engine only reads columns that are present. -/
def getCol (df : DataFrame K) (c : String) : Series K :=
  ((df.find? (fun p => p.1 == c)).map (fun p => p.2)).getD []

/-- `df[name] = s`: overwrite the column if it exists, else append it. -/
def setCol (df : DataFrame K) (c : String) (s : Series K) : DataFrame K :=
  if df.any (fun p => p.1 == c) then
    df.map (fun p => if p.1 == c then (c, s) else p)
  else
    df ++ [(c, s)]

/-- `df.drop([name], axis=1)`. -/
def dropCol (df : DataFrame K) (c : String) : DataFrame K :=
  df.filter (fun p => p.1 != c)

end DataFrameOps

namespace TechnicalIndicators

variable {K : Type} [LinearOrderedField K]

/-- One `MA{period}` column: `result[column].rolling(window=period).mean()`
(stock_indicators.py line 30). -/
def ma_col (s : Series K) (period : ℕ) : Series K :=
  rollingMean period s

/-- One `EMA{period}` column:
`result[column].ewm(span=period, adjust=False).mean()`
(stock_indicators.py line 47); pandas turns `span` into `α = 2/(span+1)`. -/
def ema_col (s : Series K) (period : ℕ) : Series K :=
  ewmSeries (2 / ((period : K) + 1)) s

/-- `TechnicalIndicators.calculate_ma`: adds `MA{p}` for each period. -/
def calculate_ma (df : DataFrame K) (column : String) (periods : List ℕ) :
    DataFrame K :=
  periods.foldl
    (fun result p => setCol result ("MA" ++ toString p) (ma_col (getCol result column) p))
    df

/-- `TechnicalIndicators.calculate_ema`: adds `EMA{p}` for each period. -/
def calculate_ema (df : DataFrame K) (column : String) (periods : List ℕ) :
    DataFrame K :=
  periods.foldl
    (fun result p => setCol result ("EMA" ++ toString p) (ema_col (getCol result column) p))
    df

/-- `TechnicalIndicators.calculate_macd`: `MACD_DIF = EMA(fast) − EMA(slow)`,
`MACD_DEA = ewm(DIF, span=signal)`, `MACD_HIST = 2·(DIF − DEA)`. -/
def calculate_macd (df : DataFrame K) (column : String)
    (fast slow signal : ℕ) : DataFrame K :=
  let ema_fast := ewmSeries (2 / ((fast : K) + 1)) (getCol df column)
  let ema_slow := ewmSeries (2 / ((slow : K) + 1)) (getCol df column)
  let r1 := setCol df "MACD_DIF" (List.zipWith oSub ema_fast ema_slow)
  let r2 := setCol r1 "MACD_DEA"
    (ewmSeries (2 / ((signal : K) + 1)) (getCol r1 "MACD_DIF"))
  setCol r2 "MACD_HIST"
    (List.zipWith (fun a b => (oSub a b).map (fun x => 2 * x))
      (getCol r2 "MACD_DIF") (getCol r2 "MACD_DEA"))

/-- The up-move column of the RSI computation: `delta` clipped below at 0
(`up = delta.copy(); up[up < 0] = 0`); a missing delta stays missing. -/
def rsi_up (s : Series K) : Series K :=
  (diffSeries s).map (fun o => o.map (fun d => if d < 0 then 0 else d))

/-- The down-move column: `down = -delta.copy(); down[down < 0] = 0`. -/
def rsi_down (s : Series K) : Series K :=
  (diffSeries s).map (fun o => o.map (fun d => if -d < 0 then 0 else -d))

/-- `avg_up = up.rolling(window=period).mean()`. -/
def rsi_avg_up (s : Series K) (period : ℕ) : Series K :=
  rollingMean period (rsi_up s)

/-- `avg_down = down.rolling(window=period).mean()`. -/
def rsi_avg_down (s : Series K) (period : ℕ) : Series K :=
  rollingMean period (rsi_down s)

/-- One RSI cell from `avg_up` and `avg_down`:
`rs = avg_up / avg_down; rsi = 100 - 100/(1 + rs)` in IEEE arithmetic.
The float special cases are written out: with `avg_down = 0` and
`avg_up ≠ 0` the quotient is `±∞` and the formula collapses to `100`;
with `0/0` the quotient is `NaN` and the cell is missing. -/
def rsiPoint (u d : Option K) : Option K :=
  match u, d with
  | some u, some d =>
    if d = 0 then (if u = 0 then none else some 100)
    else some (100 - 100 / (1 + u / d))
  | _, _ => none

/-- One `RSI{period}` column (stock_indicators.py lines 89–104). -/
def rsi_col (s : Series K) (period : ℕ) : Series K :=
  List.zipWith rsiPoint (rsi_avg_up s period) (rsi_avg_down s period)

/-- `TechnicalIndicators.calculate_rsi`: adds `RSI{p}` for each period. -/
def calculate_rsi (df : DataFrame K) (column : String) (periods : List ℕ) :
    DataFrame K :=
  periods.foldl
    (fun result p => setCol result ("RSI" ++ toString p) (rsi_col (getCol df column) p))
    df

/-- One RSV cell: `100·(close − low_n)/(high_n − low_n + 1e-9)`. -/
def kdjRsv (c lo hi : Option K) : Option K :=
  match c, lo, hi with
  | some c, some lo, some hi => some (100 * (c - lo) / (hi - lo + 1 / 1000000000))
  | _, _, _ => none

/-- `TechnicalIndicators.calculate_kdj` (stock_indicators.py 109–142). -/
def calculate_kdj (df : DataFrame K)
    (high_column low_column close_column : String) (n m1 m2 : ℕ) :
    DataFrame K :=
  let r1 := setCol df "low_n" (rollingMin n (getCol df low_column))
  let r2 := setCol r1 "high_n" (rollingMax n (getCol r1 high_column))
  let rsv := List.zipWith (fun c p => kdjRsv c p.1 p.2)
    (getCol r2 close_column)
    (List.zip (getCol r2 "low_n") (getCol r2 "high_n"))
  let r3 := setCol r2 "RSV" rsv
  let r4 := setCol r3 "K" (ewmSeries (1 / (m1 : K)) (getCol r3 "RSV"))
  let r5 := setCol r4 "D" (ewmSeries (1 / (m2 : K)) (getCol r4 "K"))
  let r6 := setCol r5 "J"
    (List.zipWith
      (fun k d =>
        match k, d with
        | some k, some d => some (3 * k - 2 * d)
        | _, _ => none)
      (getCol r5 "K") (getCol r5 "D"))
  dropCol (dropCol (dropCol r6 "low_n") "high_n") "RSV"

/-- `Series.pct_change() * 100` on the volume column; the zero-divisor
cell (yesterday volume 0, an IEEE infinity) is treated as missing. -/
def volumeChange (s : Series K) : Series K :=
  (List.range s.length).map fun i =>
    match i with
    | 0 => none
    | j + 1 =>
      match (s[j + 1]?).join, (s[j]?).join with
      | some a, some b => if b = 0 then none else some ((a - b) / b * 100)
      | _, _ => none

/-- One OBV step: `+volume` when close rose, `-volume` when it fell,
`0` otherwise (`np.where` treats a `NaN` comparison as false). -/
def obvStep (prev cur : Option K) (vol : Option K) : Option K :=
  match prev, cur with
  | some p, some c =>
    if p < c then vol else if c < p then vol.map (fun v => -v) else some 0
  | _, _ => some 0

/-- Running cumulative sum; a missing step poisons every later cell,
as IEEE `NaN` does under `cumsum`. -/
def cumsumFrom (acc : Option K) : Series K → Series K
  | [] => []
  | o :: rest =>
    let acc2 :=
      match acc, o with
      | some a, some b => some (a + b)
      | _, _ => none
    acc2 :: cumsumFrom acc2 rest

/-- `TechnicalIndicators.calculate_volume_indicators`
(stock_indicators.py 175–206). -/
def calculate_volume_indicators (df : DataFrame K)
    (volume_column price_column : String) : DataFrame K :=
  let r1 := setCol df "Volume_MA5" (rollingMean 5 (getCol df volume_column))
  let r2 := setCol r1 "Volume_MA10" (rollingMean 10 (getCol r1 volume_column))
  let r3 := setCol r2 "Volume_Change" (volumeChange (getCol r2 volume_column))
  let price := getCol r3 price_column
  let steps := (List.range price.length).map fun i =>
    obvStep ((price[i - 1]?).join |> fun o => if i = 0 then none else o)
      ((price[i]?).join) ((getCol r3 volume_column)[i]?.join)
  setCol r3 "OBV" (cumsumFrom (some 0) steps)

/-- `Series.rolling(window=n).std()` (sample standard deviation,
`ddof = 1`).  The square root forces real numbers; every other part of
the engine is field-generic and executable. -/
noncomputable def rollingStd (n : ℕ) (s : Series ℝ) : Series ℝ :=
  (List.range s.length).map fun i =>
    if n ≤ i + 1 then
      match seqOpt (windowAt n s i) with
      | some ws =>
        some (Real.sqrt (((ws.map (fun x => (x - ws.sum / n) ^ 2)).sum) / ((n : ℝ) - 1)))
      | none => none
    else none

/-- `TechnicalIndicators.calculate_bollinger_bands`
(stock_indicators.py 145–172). -/
noncomputable def calculate_bollinger_bands (df : DataFrame ℝ)
    (column : String) (window : ℕ) (num_std : ℝ) : DataFrame ℝ :=
  let r1 := setCol df "BB_MA" (rollingMean window (getCol df column))
  let r2 := setCol r1 "BB_STD" (rollingStd window (getCol r1 column))
  let r3 := setCol r2 "BB_Upper"
    (List.zipWith (fun m s => match m, s with
      | some m, some s => some (m + s * num_std)
      | _, _ => none) (getCol r2 "BB_MA") (getCol r2 "BB_STD"))
  let r4 := setCol r3 "BB_Lower"
    (List.zipWith (fun m s => match m, s with
      | some m, some s => some (m - s * num_std)
      | _, _ => none) (getCol r3 "BB_MA") (getCol r3 "BB_STD"))
  setCol r4 "BB_Width"
    (List.zipWith (fun ul m => match ul, m with
      | some ul, some m => some (ul / m)
      | _, _ => none)
      (List.zipWith oSub (getCol r4 "BB_Upper") (getCol r4 "BB_Lower"))
      (getCol r4 "BB_MA"))

/-- The input columns `calculate_all_indicators` insists on
(stock_indicators.py line 223). -/
def required_columns : List String := ["open", "high", "low", "close", "volume"]

/-- `TechnicalIndicators.calculate_all_indicators`
(stock_indicators.py 208–239).  The Python function never raises: when a
required column is absent it logs the error and executes `return df`,
handing the *original* frame back to the caller; the `Except` codomain
records that no exceptional exit exists. -/
noncomputable def calculate_all_indicators (df : DataFrame ℝ) :
    Except String (DataFrame ℝ) :=
  if required_columns.all (fun c => hasCol df c) then
    Except.ok
      (calculate_volume_indicators
        (calculate_bollinger_bands
          (calculate_kdj
            (calculate_rsi
              (calculate_macd
                (calculate_ema
                  (calculate_ma df "close" [5, 10, 20, 60])
                  "close" [5, 10, 20, 60])
                "close" 12 26 9)
              "close" [6, 12, 24])
            "high" "low" "close" 9 3 3)
          "close" 20 2)
        "volume" "close")
  else
    Except.ok df

end TechnicalIndicators

/-! ## The filter engine (src/backend/models/stock_filter.py)

The two SQL tables are lists of records; prices are rationals.  SQL
`NULL` (an indicator cell that was never filled) is `Option.none`, and a
`NULL` comparison is unsatisfied.  `Database.execute` returns `None` on
any SQL error and each evaluator maps a `None` result to `[]`, so every
evaluator is total. -/

/-- One row of `daily_data` (database.py schema). -/
structure DailyRow where
  code : String
  date : ℕ
  open_ : ℚ
  high : ℚ
  low : ℚ
  close : ℚ
  volume : ℚ

/-- One row of `technical_indicators` (database.py schema); indicator
cells may be `NULL`. -/
structure IndRow where
  code : String
  date : ℕ
  ma5 : Option ℚ
  ma10 : Option ℚ
  ma20 : Option ℚ
  ma60 : Option ℚ
  macd_dif : Option ℚ
  macd_dea : Option ℚ
  macd_hist : Option ℚ
  k : Option ℚ
  d : Option ℚ
  j : Option ℚ
  bb_upper : Option ℚ
  bb_middle : Option ℚ
  bb_lower : Option ℚ

/-- The store the evaluators read. -/
structure Store where
  daily_data : List DailyRow
  technical_indicators : List IndRow

/-- SQL `a < b`: satisfied only when both operands are non-`NULL`. -/
def oLt (a b : Option ℚ) : Bool :=
  match a, b with
  | some x, some y => decide (x < y)
  | _, _ => false

/-- Largest element of a list of dates (`SELECT MAX(date)`). -/
def maxOfList : List ℕ → Option ℕ
  | [] => none
  | d :: ds => some (ds.foldl max d)

/-- The two most recent distinct dates
(`SELECT DISTINCT date … ORDER BY date DESC LIMIT 2` followed by the
`len(dates) < 2` guard): `none` when fewer than 2 distinct dates exist. -/
def latestPair (ds : List ℕ) : Option (ℕ × ℕ) :=
  match maxOfList ds with
  | none => none
  | some m =>
    match maxOfList (ds.filter (fun d => d < m)) with
    | none => none
    | some p => some (m, p)

/-- `SELECT DISTINCT code FROM rows WHERE pred`. -/
def selectCodes {α : Type} (rows : List α) (code : α → String) (pred : α → Bool) :
    List String :=
  ((rows.filter pred).map code).dedup

namespace StockFilter

/-- The daily-data column named by `price_column`, or `none` when no such
column exists (the SQL then fails and `Database.execute` yields `None`). -/
def dailyCol (r : DailyRow) : String → Option ℚ
  | "open" => some r.open_
  | "high" => some r.high
  | "low" => some r.low
  | "close" => some r.close
  | "volume" => some r.volume
  | _ => none

/-- Whether `daily_data` has a price column of this name. -/
def validDailyCol (c : String) : Bool :=
  c == "open" || c == "high" || c == "low" || c == "close" || c == "volume"

/-- The `ma{period}` column of `technical_indicators`, defined only for
the four periods the schema stores. -/
def maCol (r : IndRow) : ℕ → Option ℚ
  | 5 => r.ma5
  | 10 => r.ma10
  | 20 => r.ma20
  | 60 => r.ma60
  | _ => none

/-- Whether the schema has an `ma{period}` column. -/
def validMaPeriod (period : ℕ) : Bool :=
  period == 5 || period == 10 || period == 20 || period == 60

/-- `StockFilter.filter_by_ma` (stock_filter.py 57–129).  The static
branch reads the latest date only; the cross branch first demands two
distinct dates and returns `[]` otherwise; an unknown relation returns
`[]`; a relation whose SQL names a column the schema lacks comes back as
`[]` because `Database.execute` swallows the error. -/
def filter_by_ma (s : Store) (period : ℕ) (relation : String)
    (price_column : String) : List String :=
  if relation == "above" || relation == "below" then
    if !(validDailyCol price_column && validMaPeriod period) then []
    else
      match maxOfList (s.daily_data.map (fun r => r.date)) with
      | none => []
      | some latest =>
        selectCodes s.daily_data (fun r => r.code) (fun r2 =>
          r2.date == latest &&
          s.technical_indicators.any (fun t =>
            t.code == r2.code && t.date == r2.date &&
            (if relation == "above" then oLt (maCol t period) (dailyCol r2 price_column)
             else oLt (dailyCol r2 price_column) (maCol t period))))
  else if relation == "cross_above" || relation == "cross_below" then
    match latestPair (s.daily_data.map (fun r => r.date)) with
    | none => []
    | some (latest, prev) =>
      if !(validDailyCol price_column && validMaPeriod period) then []
      else
        selectCodes s.daily_data (fun r => r.code) (fun d1 =>
          d1.date == latest &&
          s.technical_indicators.any (fun t1 =>
            t1.code == d1.code && t1.date == d1.date &&
            s.daily_data.any (fun d2 =>
              d2.code == d1.code && d2.date == prev &&
              s.technical_indicators.any (fun t2 =>
                t2.code == d2.code && t2.date == d2.date &&
                (if relation == "cross_above" then
                  oLt (dailyCol d2 price_column) (maCol t2 period) &&
                  oLt (maCol t1 period) (dailyCol d1 price_column)
                 else
                  oLt (maCol t2 period) (dailyCol d2 price_column) &&
                  oLt (dailyCol d1 price_column) (maCol t1 period))))))
  else []

/-- `StockFilter.filter_by_macd` (stock_filter.py 168–248): the two-date
guard precedes the condition dispatch, so every condition — including
the single-day `positive`/`negative` — yields `[]` under insufficient
history; an unknown condition yields `[]`. -/
def filter_by_macd (s : Store) (condition : String) : List String :=
  match latestPair (s.technical_indicators.map (fun r => r.date)) with
  | none => []
  | some (latest, prev) =>
    if condition == "golden_cross" then
      selectCodes s.technical_indicators (fun r => r.code) (fun t1 =>
        t1.date == latest &&
        s.technical_indicators.any (fun t2 =>
          t1.code == t2.code && t2.date == prev &&
          oLt t2.macd_dif t2.macd_dea && oLt t1.macd_dea t1.macd_dif))
    else if condition == "dead_cross" then
      selectCodes s.technical_indicators (fun r => r.code) (fun t1 =>
        t1.date == latest &&
        s.technical_indicators.any (fun t2 =>
          t1.code == t2.code && t2.date == prev &&
          oLt t2.macd_dea t2.macd_dif && oLt t1.macd_dif t1.macd_dea))
    else if condition == "positive" then
      selectCodes s.technical_indicators (fun r => r.code) (fun t =>
        t.date == latest && oLt (some 0) t.macd_dif && oLt (some 0) t.macd_hist)
    else if condition == "negative" then
      selectCodes s.technical_indicators (fun r => r.code) (fun t =>
        t.date == latest && oLt t.macd_dif (some 0) && oLt t.macd_hist (some 0))
    else []

/-- `StockFilter.filter_by_kdj` (stock_filter.py 250–330); same shape as
the MACD evaluator with `k`/`d` in place of `macd_dif`/`macd_dea`. -/
def filter_by_kdj (s : Store) (condition : String) : List String :=
  match latestPair (s.technical_indicators.map (fun r => r.date)) with
  | none => []
  | some (latest, prev) =>
    if condition == "golden_cross" then
      selectCodes s.technical_indicators (fun r => r.code) (fun t1 =>
        t1.date == latest &&
        s.technical_indicators.any (fun t2 =>
          t1.code == t2.code && t2.date == prev &&
          oLt t2.k t2.d && oLt t1.d t1.k))
    else if condition == "dead_cross" then
      selectCodes s.technical_indicators (fun r => r.code) (fun t1 =>
        t1.date == latest &&
        s.technical_indicators.any (fun t2 =>
          t1.code == t2.code && t2.date == prev &&
          oLt t2.d t2.k && oLt t1.k t1.d))
    else if condition == "oversold" then
      selectCodes s.technical_indicators (fun r => r.code) (fun t =>
        t.date == latest && oLt t.k (some 20) && oLt t.d (some 20))
    else if condition == "overbought" then
      selectCodes s.technical_indicators (fun r => r.code) (fun t =>
        t.date == latest && oLt (some 80) t.k && oLt (some 80) t.d)
    else []

/-- The windowed average volume used by the `above_ma`/`below_ma`
branch: `AVG(volume) OVER (PARTITION BY code ORDER BY date ROWS BETWEEN
w-1 PRECEDING AND CURRENT ROW)` — the mean over the `w` most recent rows
of this code dated at or before `date` (fewer at the start of history). -/
def avgVolume (rows : List DailyRow) (code : String) (date : ℕ) (w : ℕ) : ℚ :=
  let upTo := rows.filter (fun r => r.code == code && decide (r.date ≤ date))
  let frame := upTo.filter (fun r =>
    decide ((upTo.filter (fun r2 => decide (r.date < r2.date))).length < w))
  ((frame.map (fun r => r.volume)).sum) / (frame.length : ℚ)

/-- `StockFilter.filter_by_volume` (stock_filter.py 332–415).  The
two-date guard precedes the dispatch; `increase`/`decrease` default the
percentage threshold to 20; `above_ma`/`below_ma` default a missing or
non-positive window to 5, and a fractional window below 1 makes the SQL
frame bound negative, which `Database.execute` turns into `[]`. -/
def filter_by_volume (s : Store) (condition : String) (threshold : Option ℚ) :
    List String :=
  match latestPair (s.daily_data.map (fun r => r.date)) with
  | none => []
  | some (latest, prev) =>
    if condition == "increase" || condition == "decrease" then
      let t := threshold.getD 20
      selectCodes s.daily_data (fun r => r.code) (fun d1 =>
        d1.date == latest &&
        s.daily_data.any (fun d2 =>
          d1.code == d2.code && d2.date == prev &&
          (if condition == "increase" then
            decide (d2.volume * (1 + t / 100) < d1.volume)
           else
            decide (d1.volume < d2.volume * (1 - t / 100)))))
    else if condition == "above_ma" || condition == "below_ma" then
      let t : ℚ :=
        match threshold with
        | none => 5
        | some v => if v ≤ 0 then 5 else v
      if ⌊t⌋ ≤ 0 then []
      else
        let w : ℕ := (⌊t⌋).toNat
        selectCodes s.daily_data (fun r => r.code) (fun r =>
          r.date == latest &&
          (if condition == "above_ma" then
            decide (avgVolume s.daily_data r.code r.date w < r.volume)
           else
            decide (r.volume < avgVolume s.daily_data r.code r.date w)))
    else []

/-- `StockFilter.filter_by_bollinger_bands` (stock_filter.py 417–521).
Every condition needs the two most recent dates; the `squeeze` branch
compares the *raw* band differences:
`(t1.bb_upper - t1.bb_lower) < (t2.bb_upper - t2.bb_lower) * 0.9`. -/
def filter_by_bollinger_bands (s : Store) (condition : String) : List String :=
  match latestPair (s.technical_indicators.map (fun r => r.date)) with
  | none => []
  | some (latest, prev) =>
    if condition == "upper_break" then
      selectCodes s.technical_indicators (fun r => r.code) (fun t1 =>
        t1.date == latest &&
        s.technical_indicators.any (fun t2 =>
          t1.code == t2.code && t2.date == prev &&
          s.daily_data.any (fun d1 =>
            t1.code == d1.code && t1.date == d1.date &&
            s.daily_data.any (fun d2 =>
              t2.code == d2.code && t2.date == d2.date &&
              oLt (some d2.close) t2.bb_upper && oLt t1.bb_upper (some d1.close)))))
    else if condition == "lower_break" then
      selectCodes s.technical_indicators (fun r => r.code) (fun t1 =>
        t1.date == latest &&
        s.technical_indicators.any (fun t2 =>
          t1.code == t2.code && t2.date == prev &&
          s.daily_data.any (fun d1 =>
            t1.code == d1.code && t1.date == d1.date &&
            s.daily_data.any (fun d2 =>
              t2.code == d2.code && t2.date == d2.date &&
              oLt t2.bb_lower (some d2.close) && oLt (some d1.close) t1.bb_lower))))
    else if condition == "middle_cross_above" then
      selectCodes s.technical_indicators (fun r => r.code) (fun t1 =>
        t1.date == latest &&
        s.technical_indicators.any (fun t2 =>
          t1.code == t2.code && t2.date == prev &&
          s.daily_data.any (fun d1 =>
            t1.code == d1.code && t1.date == d1.date &&
            s.daily_data.any (fun d2 =>
              t2.code == d2.code && t2.date == d2.date &&
              oLt (some d2.close) t2.bb_middle && oLt t1.bb_middle (some d1.close)))))
    else if condition == "middle_cross_below" then
      selectCodes s.technical_indicators (fun r => r.code) (fun t1 =>
        t1.date == latest &&
        s.technical_indicators.any (fun t2 =>
          t1.code == t2.code && t2.date == prev &&
          s.daily_data.any (fun d1 =>
            t1.code == d1.code && t1.date == d1.date &&
            s.daily_data.any (fun d2 =>
              t2.code == d2.code && t2.date == d2.date &&
              oLt t2.bb_middle (some d2.close) && oLt (some d1.close) t1.bb_middle))))
    else if condition == "squeeze" then
      selectCodes s.technical_indicators (fun r => r.code) (fun t1 =>
        t1.date == latest &&
        s.technical_indicators.any (fun t2 =>
          t1.code == t2.code && t2.date == prev &&
          oLt (oSub t1.bb_upper t1.bb_lower)
            ((oSub t2.bb_upper t2.bb_lower).map (fun x => x * (9 / 10)))))
    else []

/-- `StockFilter.combine_filters` (stock_filter.py 523–550).  A Python
`set` of symbols is modelled as a duplicate-free list; `set(x)` is
`x.dedup`, intersection is `List.inter`, union is `List.union`.  The
empty input returns `[]`, a single input is handed back *unchanged*, and
any logic other than `"and"` takes the `else` (union) branch. -/
def combine_filters (filter_results : List (List String)) (logic : String) :
    List String :=
  match filter_results with
  | [] => []
  | [r] => r
  | r :: rest =>
    if logic == "and" then
      rest.foldl (fun acc codes => acc.inter codes) r.dedup
    else
      filter_results.foldl (fun acc codes => acc.union codes.dedup) []

end StockFilter

/-! ## Reference definitions taken from the specification's words -/

/-- Modelled from the spec (§4.4): the reference set-algebra combinator —
`combine([], mode) = ∅`; otherwise AND is the intersection across all
inputs and OR the union across all inputs. -/
def combineSpec (rs : List (Finset String)) (mode : String) : Finset String :=
  match rs with
  | [] => ∅
  | r :: rest =>
    if mode == "and" then rest.foldl (fun a b => a ∩ b) r
    else rest.foldl (fun a b => a ∪ b) r

/-- Modelled from the spec (§4.1): the reference EMA recurrence —
`ema[0] = close[0]` (seed = first value) and
`ema[i] = α·close[i] + (1−α)·ema[i−1]`; `none` past the end of the
series. -/
def emaSpec {K : Type} [LinearOrderedField K] (α : K) (close : List K) :
    ℕ → Option K
  | 0 => close.head?
  | i + 1 =>
    match close[i + 1]?, emaSpec α close i with
    | some c, some prev => some (α * c + (1 - α) * prev)
    | _, _ => none

/-- The value at position `i` of the EMA recurrence run from an
accumulator `acc` over the remaining closes `cs` (proof-side description
of the `ewmGo` tail). -/
def emaFrom {K : Type} [LinearOrderedField K] (α acc : K) (cs : List K) :
    ℕ → Option K
  | 0 => cs.head?.map (fun x => α * x + (1 - α) * acc)
  | i + 1 =>
    match cs[i + 1]?, emaFrom α acc cs i with
    | some c, some p => some (α * c + (1 - α) * p)
    | _, _ => none

/-! ## Concrete data used by counterexamples and witnesses -/

/-- A bar frame lacking the required `volume` column. -/
def dfNoVolume : DataFrame ℝ :=
  [("open", [some 1]), ("high", [some 2]), ("low", [some 1]), ("close", [some 2])]

/-- A bar frame lacking the required `high` column. -/
def dfNoHigh : DataFrame ℝ :=
  [("open", [some 1]), ("low", [some 1]), ("close", [some 2]), ("volume", [some 3])]

/-- An indicator row with every nullable cell `NULL`. -/
def blankIndRow : IndRow :=
  { code := "X", date := 0, ma5 := none, ma10 := none, ma20 := none, ma60 := none,
    macd_dif := none, macd_dea := none, macd_hist := none,
    k := none, d := none, j := none,
    bb_upper := none, bb_middle := none, bb_lower := none }

/-- Yesterday (date 1) for symbol `X`: band `[1, 11]` around middle `1` —
raw band difference `10`, normalized width `10`. -/
def squeezeRowYesterday : IndRow :=
  { blankIndRow with
    date := 1,
    bb_upper := some 11, bb_middle := some 1, bb_lower := some 1 }

/-- Today (date 2) for symbol `X`: band `[100, 110]` around middle
`100` — raw band difference `10`, normalized width `0.1`. -/
def squeezeRowToday : IndRow :=
  { blankIndRow with
    date := 2,
    bb_upper := some 110, bb_middle := some 100, bb_lower := some 100 }

/-- A store on which the normalized-width reading of `squeeze` and the
implemented raw-difference reading disagree. -/
def squeezeStore : Store :=
  { daily_data := [], technical_indicators := [squeezeRowYesterday, squeezeRowToday] }

/-- Symbol `V` yesterday (date 1): volume 100. -/
def volRowYesterday : DailyRow :=
  { code := "V", date := 1, open_ := 10, high := 10, low := 10, close := 10, volume := 100 }

/-- Symbol `V` today (date 2): volume 120 — exactly `(1 + 20/100)·100`. -/
def volRowToday : DailyRow :=
  { volRowYesterday with date := 2, volume := 120 }

/-- A store sitting exactly on the default 20% volume-increase boundary. -/
def volBoundaryStore : Store :=
  { daily_data := [volRowYesterday, volRowToday], technical_indicators := [] }

/-- A store whose two tables each hold rows of a single date. -/
def oneDateStore : Store :=
  { daily_data := [volRowYesterday, { volRowYesterday with code := "W" }],
    technical_indicators := [{ blankIndRow with date := 1 }] }

/-! ## Supporting lemmas -/

theorem mem_selectCodes {α : Type} {rows : List α} {code : α → String}
    {pred : α → Bool} {x : String} :
    x ∈ selectCodes rows code pred ↔ ∃ r ∈ rows, pred r = true ∧ code r = x := by
  simp only [selectCodes, List.mem_dedup, List.mem_map, List.mem_filter]
  constructor
  · rintro ⟨r, ⟨hr, hp⟩, hc⟩
    exact ⟨r, hr, hp, hc⟩
  · rintro ⟨r, hr, hp, hc⟩
    exact ⟨r, ⟨hr, hp⟩, hc⟩

theorem foldl_max_mem (ds : List ℕ) (d : ℕ) : ds.foldl max d ∈ d :: ds := by
  induction ds generalizing d with
  | nil => simp
  | cons a tl ih =>
    have h := ih (max d a)
    simp only [List.foldl_cons]
    rcases List.mem_cons.mp h with h1 | h1
    · rw [h1]
      rcases max_choice d a with h2 | h2 <;> rw [h2] <;> simp
    · exact List.mem_cons.mpr (Or.inr (List.mem_cons.mpr (Or.inr h1)))

theorem latestPair_eq_none {ds : List ℕ} (h : ∀ a ∈ ds, ∀ b ∈ ds, a = b) :
    latestPair ds = none := by
  match ds with
  | [] => rfl
  | d :: tl =>
    have hm : tl.foldl max d ∈ d :: tl := foldl_max_mem tl d
    have hfil : (d :: tl).filter (fun x => decide (x < tl.foldl max d)) = [] := by
      rw [List.filter_eq_nil_iff]
      intro a ha
      simp only [decide_eq_true_eq, not_lt]
      rw [h a ha _ hm]
    simp [latestPair, maxOfList, hfil]

theorem mem_inter_lists {x : String} {l₁ l₂ : List String} :
    x ∈ l₁.inter l₂ ↔ x ∈ l₁ ∧ x ∈ l₂ :=
  List.mem_inter_iff

theorem mem_union_lists {x : String} {l₁ l₂ : List String} :
    x ∈ l₁.union l₂ ↔ x ∈ l₁ ∨ x ∈ l₂ :=
  List.mem_union_iff

theorem mem_foldl_inter {x : String} (rest : List (List String)) (init : List String) :
    x ∈ rest.foldl (fun acc codes => acc.inter codes) init ↔
      x ∈ init ∧ ∀ codes ∈ rest, x ∈ codes := by
  induction rest generalizing init with
  | nil => simp
  | cons c tl ih =>
    simp only [List.foldl_cons, ih, mem_inter_lists, List.mem_cons]
    constructor
    · rintro ⟨⟨h1, h2⟩, h3⟩
      refine ⟨h1, fun codes hc => ?_⟩
      rcases hc with rfl | hc
      · exact h2
      · exact h3 codes hc
    · rintro ⟨h1, h2⟩
      exact ⟨⟨h1, h2 c (Or.inl rfl)⟩, fun codes hc => h2 codes (Or.inr hc)⟩

theorem mem_foldl_union {x : String} (rs : List (List String)) (init : List String) :
    x ∈ rs.foldl (fun acc codes => acc.union codes.dedup) init ↔
      x ∈ init ∨ ∃ codes ∈ rs, x ∈ codes := by
  induction rs generalizing init with
  | nil => simp
  | cons c tl ih =>
    simp only [List.foldl_cons, ih, mem_union_lists, List.mem_dedup, List.mem_cons]
    constructor
    · rintro (⟨h | h⟩ | ⟨codes, hc, hx⟩)
      · exact Or.inl h
      · exact Or.inr ⟨c, Or.inl rfl, h⟩
      · exact Or.inr ⟨codes, Or.inr hc, hx⟩
    · rintro (h | ⟨codes, rfl | hc, hx⟩)
      · exact Or.inl (Or.inl h)
      · exact Or.inl (Or.inr hx)
      · exact Or.inr ⟨codes, hc, hx⟩

theorem mem_foldl_finset_inter {x : String} (rest : List (Finset String))
    (init : Finset String) :
    x ∈ rest.foldl (fun a b => a ∩ b) init ↔ x ∈ init ∧ ∀ r ∈ rest, x ∈ r := by
  induction rest generalizing init with
  | nil => simp
  | cons c tl ih =>
    simp only [List.foldl_cons, ih, Finset.mem_inter, List.mem_cons]
    constructor
    · rintro ⟨⟨h1, h2⟩, h3⟩
      refine ⟨h1, fun r hr => ?_⟩
      rcases hr with rfl | hr
      · exact h2
      · exact h3 r hr
    · rintro ⟨h1, h2⟩
      exact ⟨⟨h1, h2 c (Or.inl rfl)⟩, fun r hr => h2 r (Or.inr hr)⟩

theorem mem_foldl_finset_union {x : String} (rest : List (Finset String))
    (init : Finset String) :
    x ∈ rest.foldl (fun a b => a ∪ b) init ↔ x ∈ init ∨ ∃ r ∈ rest, x ∈ r := by
  induction rest generalizing init with
  | nil => simp
  | cons c tl ih =>
    simp only [List.foldl_cons, ih, Finset.mem_union, List.mem_cons]
    constructor
    · rintro (⟨h | h⟩ | ⟨r, hr, hx⟩)
      · exact Or.inl h
      · exact Or.inr ⟨c, Or.inl rfl, h⟩
      · exact Or.inr ⟨r, Or.inr hr, hx⟩
    · rintro (h | ⟨r, rfl | hr, hx⟩)
      · exact Or.inl (Or.inl h)
      · exact Or.inl (Or.inr hx)
      · exact Or.inr ⟨r, hr, hx⟩

theorem mem_combine_and {rs : List (List String)} {x : String} :
    x ∈ StockFilter.combine_filters rs "and" ↔ rs ≠ [] ∧ ∀ r ∈ rs, x ∈ r := by
  match rs with
  | [] => simp [StockFilter.combine_filters]
  | [r] => simp [StockFilter.combine_filters]
  | r :: r2 :: rest =>
    simp only [StockFilter.combine_filters]
    simp only [beq_self_eq_true, eq_self_iff_true, if_true]
    simp only [mem_foldl_inter, List.mem_dedup, List.mem_cons, ne_eq,
      reduceCtorEq, not_false_iff, true_and]
    constructor
    · rintro ⟨h1, h2⟩
      intro c hc
      rcases hc with rfl | rfl | hc
      · exact h1
      · exact h2 c (Or.inl rfl)
      · exact h2 c (Or.inr hc)
    · intro h
      exact ⟨h r (Or.inl rfl), fun c hc => h c (Or.inr hc)⟩

theorem mem_combine_not_and {rs : List (List String)} {mode : String}
    (hm : mode ≠ "and") {x : String} :
    x ∈ StockFilter.combine_filters rs mode ↔ ∃ r ∈ rs, x ∈ r := by
  match rs with
  | [] => simp [StockFilter.combine_filters]
  | [r] => simp [StockFilter.combine_filters]
  | r :: r2 :: rest =>
    simp only [StockFilter.combine_filters]
    rw [beq_eq_false_iff_ne.mpr hm]
    simp only [Bool.false_eq_true, if_false, mem_foldl_union, List.not_mem_nil,
      false_or]

theorem mem_combineSpec_and {rs : List (List String)} {x : String} :
    x ∈ combineSpec (rs.map List.toFinset) "and" ↔ rs ≠ [] ∧ ∀ r ∈ rs, x ∈ r := by
  match rs with
  | [] => simp [combineSpec]
  | r :: rest =>
    simp only [List.map_cons, combineSpec, beq_self_eq_true, eq_self_iff_true,
      if_true, mem_foldl_finset_inter, List.mem_toFinset, ne_eq, reduceCtorEq,
      not_false_iff, true_and, List.mem_cons]
    constructor
    · rintro ⟨h1, h2⟩
      intro c hc
      rcases hc with rfl | hc
      · exact h1
      · exact List.mem_toFinset.mp (h2 c.toFinset (List.mem_map.mpr ⟨c, hc, rfl⟩))
    · intro h
      refine ⟨h r (Or.inl rfl), fun f hf => ?_⟩
      rcases List.mem_map.mp hf with ⟨c, hc, rfl⟩
      exact List.mem_toFinset.mpr (h c (Or.inr hc))

theorem mem_combineSpec_not_and {rs : List (List String)} {mode : String}
    (hm : mode ≠ "and") {x : String} :
    x ∈ combineSpec (rs.map List.toFinset) mode ↔ ∃ r ∈ rs, x ∈ r := by
  match rs with
  | [] => simp [combineSpec]
  | r :: rest =>
    simp only [List.map_cons, combineSpec]
    rw [beq_eq_false_iff_ne.mpr hm]
    simp only [Bool.false_eq_true, if_false, mem_foldl_finset_union,
      List.mem_toFinset, List.mem_cons]
    constructor
    · rintro (h | ⟨f, hf, hx⟩)
      · exact ⟨r, Or.inl rfl, h⟩
      · rcases List.mem_map.mp hf with ⟨c, hc, rfl⟩
        exact ⟨c, Or.inr hc, List.mem_toFinset.mp hx⟩
    · rintro ⟨c, rfl | hc, hx⟩
      · exact Or.inl hx
      · exact Or.inr ⟨c.toFinset, List.mem_map.mpr ⟨c, hc, rfl⟩, List.mem_toFinset.mpr hx⟩

/-! ## Claim C5 -/

/-- Claim C5: `combine_filters` agrees with the reference set-algebra
fold `combineSpec` (membership-wise) for every input list and both
modes; the empty input gives `[]`, a single input is returned unchanged,
AND membership is membership in every input, OR membership (any mode
other than `"and"`) is membership in some input, membership is invariant
under permutation of the inputs and under regrouping a nonempty split,
and the AND result is contained in the OR result. -/
theorem combine_filters_algebra :
    (∀ mode, StockFilter.combine_filters [] mode = []) ∧
    (∀ S mode, StockFilter.combine_filters [S] mode = S) ∧
    (∀ (rs : List (List String)) (mode : String) (x : String),
      x ∈ StockFilter.combine_filters rs mode ↔
        x ∈ combineSpec (rs.map List.toFinset) mode) ∧
    (∀ (rs : List (List String)) (x : String),
      x ∈ StockFilter.combine_filters rs "and" ↔ rs ≠ [] ∧ ∀ r ∈ rs, x ∈ r) ∧
    (∀ (rs : List (List String)) (mode : String) (x : String), mode ≠ "and" →
      (x ∈ StockFilter.combine_filters rs mode ↔ ∃ r ∈ rs, x ∈ r)) ∧
    (∀ (rs rs2 : List (List String)) (mode : String) (x : String), rs.Perm rs2 →
      (x ∈ StockFilter.combine_filters rs mode ↔
        x ∈ StockFilter.combine_filters rs2 mode)) ∧
    (∀ (rs1 rs2 : List (List String)) (mode : String) (x : String),
      rs1 ≠ [] → rs2 ≠ [] →
      (x ∈ StockFilter.combine_filters (rs1 ++ rs2) mode ↔
        x ∈ StockFilter.combine_filters
          [StockFilter.combine_filters rs1 mode,
           StockFilter.combine_filters rs2 mode] mode)) ∧
    (∀ (rs : List (List String)) (x : String),
      x ∈ StockFilter.combine_filters rs "and" →
        x ∈ StockFilter.combine_filters rs "or") := by
  refine ⟨fun mode => rfl, fun S mode => rfl, ?_, fun rs x => mem_combine_and,
    fun rs mode x hm => mem_combine_not_and hm, ?_, ?_, ?_⟩
  · intro rs mode x
    by_cases hmode : mode = "and"
    · subst hmode
      rw [mem_combine_and, mem_combineSpec_and]
    · rw [mem_combine_not_and hmode, mem_combineSpec_not_and hmode]
  · intro rs rs2 mode x hp
    have hne : rs = [] ↔ rs2 = [] := by
      constructor
      · intro e
        subst e
        exact hp.symm.eq_nil
      · intro e
        subst e
        exact hp.eq_nil
    by_cases hmode : mode = "and"
    · subst hmode
      rw [mem_combine_and, mem_combine_and]
      constructor
      · rintro ⟨h1, h2⟩
        exact ⟨fun e => h1 (hne.mpr e), fun r hr => h2 r (hp.mem_iff.mpr hr)⟩
      · rintro ⟨h1, h2⟩
        exact ⟨fun e => h1 (hne.mp e), fun r hr => h2 r (hp.mem_iff.mp hr)⟩
    · rw [mem_combine_not_and hmode, mem_combine_not_and hmode]
      constructor
      · rintro ⟨r, hr, hx⟩
        exact ⟨r, hp.mem_iff.mp hr, hx⟩
      · rintro ⟨r, hr, hx⟩
        exact ⟨r, hp.mem_iff.mpr hr, hx⟩
  · intro rs1 rs2 mode x h1 h2
    by_cases hmode : mode = "and"
    · subst hmode
      rw [mem_combine_and, mem_combine_and]
      constructor
      · rintro ⟨hne, hall⟩
        refine ⟨by simp, fun r hr => ?_⟩
        rcases List.mem_cons.mp hr with rfl | hr
        · exact mem_combine_and.mpr
            ⟨h1, fun c hc => hall c (List.mem_append.mpr (Or.inl hc))⟩
        · rcases List.mem_cons.mp hr with rfl | hr
          · exact mem_combine_and.mpr
              ⟨h2, fun c hc => hall c (List.mem_append.mpr (Or.inr hc))⟩
          · exact absurd hr (List.not_mem_nil r)
      · rintro ⟨hne2, hall2⟩
        have ha := mem_combine_and.mp (hall2 _ (List.mem_cons.mpr (Or.inl rfl)))
        have hb := mem_combine_and.mp
          (hall2 _ (List.mem_cons.mpr (Or.inr (List.mem_cons.mpr (Or.inl rfl)))))
        refine ⟨fun e => h1 (List.append_eq_nil.mp e).1, fun c hc => ?_⟩
        rcases List.mem_append.mp hc with hc | hc
        · exact ha.2 c hc
        · exact hb.2 c hc
    · rw [mem_combine_not_and hmode, mem_combine_not_and hmode]
      constructor
      · rintro ⟨r, hr, hx⟩
        rcases List.mem_append.mp hr with hr | hr
        · exact ⟨_, List.mem_cons.mpr (Or.inl rfl),
            (mem_combine_not_and hmode).mpr ⟨r, hr, hx⟩⟩
        · exact ⟨_, List.mem_cons.mpr (Or.inr (List.mem_cons.mpr (Or.inl rfl))),
            (mem_combine_not_and hmode).mpr ⟨r, hr, hx⟩⟩
      · rintro ⟨rr, hrr, hx⟩
        rcases List.mem_cons.mp hrr with rfl | hrr
        · rcases (mem_combine_not_and hmode).mp hx with ⟨r, hr, hxr⟩
          exact ⟨r, List.mem_append.mpr (Or.inl hr), hxr⟩
        · rcases List.mem_cons.mp hrr with rfl | hrr
          · rcases (mem_combine_not_and hmode).mp hx with ⟨r, hr, hxr⟩
            exact ⟨r, List.mem_append.mpr (Or.inr hr), hxr⟩
          · exact absurd hrr (List.not_mem_nil rr)
  · intro rs x h
    rcases mem_combine_and.mp h with ⟨hne, hall⟩
    match rs with
    | [] => exact absurd rfl hne
    | r :: rest =>
      exact (mem_combine_not_and (by decide)).mpr
        ⟨r, List.mem_cons.mpr (Or.inl rfl), hall r (List.mem_cons.mpr (Or.inl rfl))⟩

theorem combine_filters_algebra_witness :
    ("b" ∈ StockFilter.combine_filters [["a", "b"], ["b", "c"]] "and" ↔
      "b" ∈ StockFilter.combine_filters [["b", "c"], ["a", "b"]] "and") ∧
    ("a" ∈ StockFilter.combine_filters [["a"], ["b"]] "or" ↔
      ∃ r ∈ [["a"], ["b"]], "a" ∈ r) ∧
    ("a" ∈ StockFilter.combine_filters ([["a", "b"]] ++ [["a"]]) "and" ↔
      "a" ∈ StockFilter.combine_filters
        [StockFilter.combine_filters [["a", "b"]] "and",
         StockFilter.combine_filters [["a"]] "and"] "and") :=
  ⟨combine_filters_algebra.2.2.2.2.2.1 [["a", "b"], ["b", "c"]]
      [["b", "c"], ["a", "b"]] "and" "b" (by decide),
   combine_filters_algebra.2.2.2.2.1 [["a"], ["b"]] "or" "a" (by decide),
   combine_filters_algebra.2.2.2.2.2.2.1 [["a", "b"]] [["a"]] "and" "a"
      (by decide) (by decide)⟩

/-! ## Claim C1 -/

/-- Claim C1 counterexample: the frame `dfNoVolume` lacks the required
`volume` column, yet `calculate_all_indicators` does not fail — it
returns normally (`Except.ok`), handing back the input frame.  The
source logs the missing column and executes `return df`
(stock_indicators.py 222–227); no `MissingColumnError` exists in the
code. -/
theorem calculate_all_indicators_missing_column_not_error :
    TechnicalIndicators.required_columns.all (fun c => hasCol dfNoVolume c) = false ∧
    TechnicalIndicators.calculate_all_indicators dfNoVolume = Except.ok dfNoVolume := by
  constructor
  · rfl
  · rw [TechnicalIndicators.calculate_all_indicators]
    rfl

/-- Claim C1, amended: for every input frame that lacks at least one of
the required columns `open, high, low, close, volume`, the indicator
computation does not raise; it logs the error and returns the input
frame unchanged, with no indicator columns added. -/
theorem calculate_all_indicators_missing_column_returns_input
    (df : DataFrame ℝ)
    (h : TechnicalIndicators.required_columns.all (fun c => hasCol df c) = false) :
    TechnicalIndicators.calculate_all_indicators df = Except.ok df := by
  rw [TechnicalIndicators.calculate_all_indicators, h]
  rfl

theorem calculate_all_indicators_missing_column_returns_input_witness :
    TechnicalIndicators.required_columns.all (fun c => hasCol dfNoHigh c) = false ∧
    TechnicalIndicators.calculate_all_indicators dfNoHigh = Except.ok dfNoHigh :=
  ⟨rfl, calculate_all_indicators_missing_column_returns_input dfNoHigh rfl⟩

/-! ## Claim C3 -/

theorem oLt_oSub_mul_iff {a b c d : Option ℚ} {q : ℚ} :
    oLt (oSub a b) ((oSub c d).map (fun x => x * q)) = true ↔
      ∃ u1 l1 u2 l2 : ℚ, a = some u1 ∧ b = some l1 ∧ c = some u2 ∧ d = some l2 ∧
        u1 - l1 < (u2 - l2) * q := by
  cases a <;> cases b <;> cases c <;> cases d <;> simp [oLt, oSub]

/-- Claim C3 counterexample: on `squeezeStore` the *normalized* width
`(upper − lower)/middle` shrinks from `10` to `0.1`, far below 0.9×, so
under the claimed normalized reading symbol `X` qualifies; yet it does
not: the implementation compares the raw differences and `10 < 0.9·10`
fails.  Qualification is therefore not equivalent to the
normalized-width condition. -/
theorem squeeze_ignores_normalized_width :
    ((110 - 100 : ℚ) / 100 < (9 / 10) * ((11 - 1 : ℚ) / 1)) ∧
    "X" ∉ StockFilter.filter_by_bollinger_bands squeezeStore "squeeze" := by
  constructor
  · norm_num
  · intro hmem
    rw [StockFilter.filter_by_bollinger_bands] at hmem
    rw [show latestPair (squeezeStore.technical_indicators.map (fun r => r.date)) =
      some (2, 1) from rfl] at hmem
    simp only [String.reduceBEq, Bool.false_eq_true, if_false, beq_self_eq_true,
      eq_self_iff_true, if_true] at hmem
    rw [mem_selectCodes] at hmem
    simp only [Bool.and_eq_true, List.any_eq_true, beq_iff_eq,
      oLt_oSub_mul_iff] at hmem
    obtain ⟨t1, ht1, ⟨hd1, t2, ht2, ⟨hcc, hd2⟩, u1, l1, u2, l2, hu1, hl1, hu2,
      hl2, hlt⟩, hcode⟩ := hmem
    simp only [squeezeStore, List.mem_cons, List.not_mem_nil, or_false]
      at ht1 ht2
    rcases ht1 with rfl | rfl <;> rcases ht2 with rfl | rfl <;>
      simp only [squeezeRowToday, squeezeRowYesterday, blankIndRow,
        Option.some.injEq] at hd1 hd2 hu1 hl1 hu2 hl2 <;>
      first
        | omega
        | (subst hu1; subst hl1; subst hu2; subst hl2; norm_num at hlt)

/-- Claim C3, amended: with a latest pair of dates `(l, p)` present, a
symbol qualifies for `squeeze` exactly when its two indicator rows carry
Bollinger bands and today's *raw* band difference `upper − lower` is
strictly less than 0.9 times yesterday's raw difference (no
normalization by the middle band); the concrete scenario —
yesterday difference 10, today 8 qualifies, today 9.5 does not — holds
for the raw difference. -/
theorem squeeze_mem_iff_raw_width (s : Store) (l p : ℕ) (x : String)
    (h : latestPair (s.technical_indicators.map (fun r => r.date)) = some (l, p)) :
    x ∈ StockFilter.filter_by_bollinger_bands s "squeeze" ↔
      ∃ t1 ∈ s.technical_indicators, ∃ t2 ∈ s.technical_indicators,
        t1.code = x ∧ t2.code = x ∧ t1.date = l ∧ t2.date = p ∧
        ∃ u1 l1 u2 l2 : ℚ,
          t1.bb_upper = some u1 ∧ t1.bb_lower = some l1 ∧
          t2.bb_upper = some u2 ∧ t2.bb_lower = some l2 ∧
          u1 - l1 < (u2 - l2) * (9 / 10) := by
  rw [StockFilter.filter_by_bollinger_bands, h]
  simp only [String.reduceBEq, Bool.false_eq_true, if_false, beq_self_eq_true,
    eq_self_iff_true, if_true]
  rw [mem_selectCodes]
  simp only [Bool.and_eq_true, List.any_eq_true, beq_iff_eq, oLt_oSub_mul_iff]
  constructor
  · rintro ⟨t1, ht1, ⟨hd1, t2, ht2, ⟨hcc, hd2⟩, u1, l1, u2, l2, hrest⟩, hcode⟩
    exact ⟨t1, ht1, t2, ht2, hcode, hcc.symm.trans hcode, hd1, hd2,
      u1, l1, u2, l2, hrest⟩
  · rintro ⟨t1, ht1, t2, ht2, hc1, hc2, hd1, hd2, u1, l1, u2, l2,
      hu1, hl1, hu2, hl2, hlt⟩
    exact ⟨t1, ht1, ⟨hd1, t2, ht2, ⟨hc1.trans hc2.symm, hd2⟩,
      u1, l1, u2, l2, hu1, hl1, hu2, hl2, hlt⟩, hc1⟩

theorem squeeze_mem_iff_raw_width_witness :
    latestPair (squeezeStore.technical_indicators.map (fun r => r.date)) =
      some (2, 1) ∧
    ("X" ∈ StockFilter.filter_by_bollinger_bands squeezeStore "squeeze" ↔
      ∃ t1 ∈ squeezeStore.technical_indicators,
        ∃ t2 ∈ squeezeStore.technical_indicators,
        t1.code = "X" ∧ t2.code = "X" ∧ t1.date = 2 ∧ t2.date = 1 ∧
        ∃ u1 l1 u2 l2 : ℚ,
          t1.bb_upper = some u1 ∧ t1.bb_lower = some l1 ∧
          t2.bb_upper = some u2 ∧ t2.bb_lower = some l2 ∧
          u1 - l1 < (u2 - l2) * (9 / 10)) :=
  ⟨by decide, squeeze_mem_iff_raw_width squeezeStore 2 1 "X" (by decide)⟩

/-! ## Claim C8 -/

/-- Claim C8 counterexample: symbol `V` has today's volume exactly
`(1 + 20/100)` times yesterday's (120 against 100), so under the
claimed `≥` reading the default `increase` filter would select it; the
implementation's strict `>` comparison excludes it. -/
theorem volume_increase_boundary_excluded :
    volRowToday.volume = volRowYesterday.volume * (1 + 20 / 100) ∧
    "V" ∉ StockFilter.filter_by_volume volBoundaryStore "increase" none := by
  constructor
  · norm_num [volRowToday, volRowYesterday]
  · intro hmem
    rw [StockFilter.filter_by_volume.eq_def] at hmem
    rw [show latestPair (volBoundaryStore.daily_data.map (fun r => r.date)) =
      some (2, 1) from rfl] at hmem
    simp only [beq_self_eq_true, Bool.true_or, eq_self_iff_true, if_true,
      Option.getD] at hmem
    rw [mem_selectCodes] at hmem
    simp only [Bool.and_eq_true, List.any_eq_true, beq_iff_eq,
      decide_eq_true_eq] at hmem
    obtain ⟨d1, hd1, ⟨hdate1, d2, hd2, ⟨hcc, hdate2⟩, hlt⟩, hcode⟩ := hmem
    simp only [volBoundaryStore, List.mem_cons, List.not_mem_nil, or_false]
      at hd1 hd2
    rcases hd1 with rfl | rfl <;> rcases hd2 with rfl | rfl <;>
      simp only [volRowToday, volRowYesterday] at hdate1 hdate2 hlt <;>
      first
        | omega
        | norm_num at hlt

/-- Claim C8, amended: with a latest pair of dates `(l, p)` present and
threshold `t` defaulting to 20 when absent, `increase` selects exactly
the symbols whose today volume is *strictly greater* than
`(1 + t/100)` times yesterday's, and `decrease` exactly those whose
today volume is *strictly less* than `(1 − t/100)` times yesterday's
(strict inequalities, not `≥`/`≤`). -/
theorem filter_volume_mem_iff_strict (s : Store) (l p : ℕ) (t : Option ℚ)
    (x : String)
    (h : latestPair (s.daily_data.map (fun r => r.date)) = some (l, p)) :
    (x ∈ StockFilter.filter_by_volume s "increase" t ↔
      ∃ d1 ∈ s.daily_data, ∃ d2 ∈ s.daily_data,
        d1.code = x ∧ d2.code = x ∧ d1.date = l ∧ d2.date = p ∧
        d2.volume * (1 + (t.getD 20) / 100) < d1.volume) ∧
    (x ∈ StockFilter.filter_by_volume s "decrease" t ↔
      ∃ d1 ∈ s.daily_data, ∃ d2 ∈ s.daily_data,
        d1.code = x ∧ d2.code = x ∧ d1.date = l ∧ d2.date = p ∧
        d1.volume < d2.volume * (1 - (t.getD 20) / 100)) := by
  constructor
  · rw [StockFilter.filter_by_volume.eq_def, h]
    simp only [beq_self_eq_true, Bool.true_or, eq_self_iff_true, if_true,
      String.reduceBEq, Bool.false_eq_true, if_false]
    rw [mem_selectCodes]
    simp only [Bool.and_eq_true, List.any_eq_true, beq_iff_eq, decide_eq_true_eq]
    constructor
    · rintro ⟨d1, hd1, ⟨hdate1, d2, hd2, ⟨hcc, hdate2⟩, hlt⟩, hcode⟩
      exact ⟨d1, hd1, d2, hd2, hcode, hcc.symm.trans hcode, hdate1, hdate2, hlt⟩
    · rintro ⟨d1, hd1, d2, hd2, hc1, hc2, hdate1, hdate2, hlt⟩
      exact ⟨d1, hd1, ⟨hdate1, d2, hd2, ⟨hc1.trans hc2.symm, hdate2⟩, hlt⟩, hc1⟩
  · rw [StockFilter.filter_by_volume.eq_def, h]
    simp only [beq_self_eq_true, Bool.or_true, eq_self_iff_true, if_true,
      String.reduceBEq, Bool.false_eq_true, if_false, Bool.false_or]
    rw [mem_selectCodes]
    simp only [Bool.and_eq_true, List.any_eq_true, beq_iff_eq, decide_eq_true_eq]
    constructor
    · rintro ⟨d1, hd1, ⟨hdate1, d2, hd2, ⟨hcc, hdate2⟩, hlt⟩, hcode⟩
      exact ⟨d1, hd1, d2, hd2, hcode, hcc.symm.trans hcode, hdate1, hdate2, hlt⟩
    · rintro ⟨d1, hd1, d2, hd2, hc1, hc2, hdate1, hdate2, hlt⟩
      exact ⟨d1, hd1, ⟨hdate1, d2, hd2, ⟨hc1.trans hc2.symm, hdate2⟩, hlt⟩, hc1⟩

theorem filter_volume_mem_iff_strict_witness :
    latestPair (volBoundaryStore.daily_data.map (fun r => r.date)) =
      some (2, 1) ∧
    ("V" ∈ StockFilter.filter_by_volume volBoundaryStore "increase" (some 10) ↔
      ∃ d1 ∈ volBoundaryStore.daily_data, ∃ d2 ∈ volBoundaryStore.daily_data,
        d1.code = "V" ∧ d2.code = "V" ∧ d1.date = 2 ∧ d2.date = 1 ∧
        d2.volume * (1 + ((some (10 : ℚ)).getD 20) / 100) < d1.volume) :=
  ⟨by decide,
   (filter_volume_mem_iff_strict volBoundaryStore 2 1 (some 10) "V" (by decide)).1⟩

/-! ## Claim C4 -/

/-- Claim C4: on a store with fewer than 2 distinct dates in each table
(here: all `daily_data` dates equal, all `technical_indicators` dates
equal), every cross-over predicate — MA `cross_above`/`cross_below` for
any period and price column, MACD and KDJ `golden_cross`/`dead_cross`,
every two-day Bollinger condition, and volume `increase`/`decrease` for
any threshold — evaluates to the empty list; totality of the evaluators
shows no exception is raised. -/
theorem crossover_filters_empty_without_two_dates
    (s : Store) (period : ℕ) (pc : String) (t : Option ℚ)
    (hd : ∀ a ∈ s.daily_data.map (fun r => r.date),
      ∀ b ∈ s.daily_data.map (fun r => r.date), a = b)
    (ht : ∀ a ∈ s.technical_indicators.map (fun r => r.date),
      ∀ b ∈ s.technical_indicators.map (fun r => r.date), a = b) :
    StockFilter.filter_by_ma s period "cross_above" pc = [] ∧
    StockFilter.filter_by_ma s period "cross_below" pc = [] ∧
    StockFilter.filter_by_macd s "golden_cross" = [] ∧
    StockFilter.filter_by_macd s "dead_cross" = [] ∧
    StockFilter.filter_by_kdj s "golden_cross" = [] ∧
    StockFilter.filter_by_kdj s "dead_cross" = [] ∧
    StockFilter.filter_by_bollinger_bands s "upper_break" = [] ∧
    StockFilter.filter_by_bollinger_bands s "lower_break" = [] ∧
    StockFilter.filter_by_bollinger_bands s "middle_cross_above" = [] ∧
    StockFilter.filter_by_bollinger_bands s "middle_cross_below" = [] ∧
    StockFilter.filter_by_bollinger_bands s "squeeze" = [] ∧
    StockFilter.filter_by_volume s "increase" t = [] ∧
    StockFilter.filter_by_volume s "decrease" t = [] := by
  have hdn := latestPair_eq_none hd
  have htn := latestPair_eq_none ht
  refine ⟨?_, ?_, ?_, ?_, ?_, ?_, ?_, ?_, ?_, ?_, ?_, ?_, ?_⟩ <;>
    simp [StockFilter.filter_by_ma, StockFilter.filter_by_macd,
      StockFilter.filter_by_kdj, StockFilter.filter_by_bollinger_bands,
      StockFilter.filter_by_volume, hdn, htn]

theorem crossover_filters_empty_without_two_dates_witness :
    StockFilter.filter_by_ma oneDateStore 20 "cross_above" "close" = [] ∧
    StockFilter.filter_by_macd oneDateStore "golden_cross" = [] ∧
    StockFilter.filter_by_bollinger_bands oneDateStore "squeeze" = [] := by
  have h := crossover_filters_empty_without_two_dates oneDateStore 20 "close" none
    (by decide) (by decide)
  exact ⟨h.1, h.2.2.1, h.2.2.2.2.2.2.2.2.2.2.1⟩

/-! ## Claim C9 -/

/-- Claim C9: the two-date guard in each evaluator precedes the
condition dispatch, so on a store with fewer than 2 distinct dates even
the single-day static conditions — MACD `positive`/`negative`, KDJ
`oversold`/`overbought`, volume `above_ma`/`below_ma` — return the empty
list without raising. -/
theorem static_filters_empty_without_two_dates
    (s : Store) (t : Option ℚ)
    (hd : ∀ a ∈ s.daily_data.map (fun r => r.date),
      ∀ b ∈ s.daily_data.map (fun r => r.date), a = b)
    (ht : ∀ a ∈ s.technical_indicators.map (fun r => r.date),
      ∀ b ∈ s.technical_indicators.map (fun r => r.date), a = b) :
    StockFilter.filter_by_macd s "positive" = [] ∧
    StockFilter.filter_by_macd s "negative" = [] ∧
    StockFilter.filter_by_kdj s "oversold" = [] ∧
    StockFilter.filter_by_kdj s "overbought" = [] ∧
    StockFilter.filter_by_volume s "above_ma" t = [] ∧
    StockFilter.filter_by_volume s "below_ma" t = [] := by
  have hdn := latestPair_eq_none hd
  have htn := latestPair_eq_none ht
  refine ⟨?_, ?_, ?_, ?_, ?_, ?_⟩ <;>
    simp [StockFilter.filter_by_macd, StockFilter.filter_by_kdj,
      StockFilter.filter_by_volume, hdn, htn]

theorem static_filters_empty_without_two_dates_witness :
    StockFilter.filter_by_macd oneDateStore "positive" = [] ∧
    StockFilter.filter_by_volume oneDateStore "above_ma" (some 5) = [] := by
  have h := static_filters_empty_without_two_dates oneDateStore (some 5)
    (by decide) (by decide)
  exact ⟨h.1, h.2.2.2.2.1⟩

/-! ## Claim C10 -/

/-- Claim C10: a condition string outside a family's recognized set
falls through every branch to the logging `else`, and the evaluator
returns the empty list; the evaluators are total, so no exception is
raised at evaluation time. -/
theorem unknown_condition_returns_empty
    (s : Store) (period : ℕ) (pc c1 c2 c3 c4 : String)
    (h1 : c1 ∉ ["above", "below", "cross_above", "cross_below"])
    (h2 : c2 ∉ ["golden_cross", "dead_cross", "positive", "negative"])
    (h3 : c3 ∉ ["golden_cross", "dead_cross", "oversold", "overbought"])
    (h4 : c4 ∉ ["upper_break", "lower_break", "middle_cross_above",
      "middle_cross_below", "squeeze"]) :
    StockFilter.filter_by_ma s period c1 pc = [] ∧
    StockFilter.filter_by_macd s c2 = [] ∧
    StockFilter.filter_by_kdj s c3 = [] ∧
    StockFilter.filter_by_bollinger_bands s c4 = [] := by
  simp only [List.mem_cons, List.not_mem_nil, or_false, not_or] at h1 h2 h3 h4
  obtain ⟨h1a, h1b, h1c, h1d⟩ := h1
  obtain ⟨h2a, h2b, h2c, h2d⟩ := h2
  obtain ⟨h3a, h3b, h3c, h3d⟩ := h3
  obtain ⟨h4a, h4b, h4c, h4d, h4e⟩ := h4
  refine ⟨?_, ?_, ?_, ?_⟩
  · simp [StockFilter.filter_by_ma, beq_eq_false_iff_ne.mpr h1a,
      beq_eq_false_iff_ne.mpr h1b, beq_eq_false_iff_ne.mpr h1c,
      beq_eq_false_iff_ne.mpr h1d]
  · rw [StockFilter.filter_by_macd]
    cases latestPair (s.technical_indicators.map (fun r => r.date)) with
    | none => rfl
    | some lp =>
      simp [beq_eq_false_iff_ne.mpr h2a, beq_eq_false_iff_ne.mpr h2b,
        beq_eq_false_iff_ne.mpr h2c, beq_eq_false_iff_ne.mpr h2d]
  · rw [StockFilter.filter_by_kdj]
    cases latestPair (s.technical_indicators.map (fun r => r.date)) with
    | none => rfl
    | some lp =>
      simp [beq_eq_false_iff_ne.mpr h3a, beq_eq_false_iff_ne.mpr h3b,
        beq_eq_false_iff_ne.mpr h3c, beq_eq_false_iff_ne.mpr h3d]
  · rw [StockFilter.filter_by_bollinger_bands]
    cases latestPair (s.technical_indicators.map (fun r => r.date)) with
    | none => rfl
    | some lp =>
      simp [beq_eq_false_iff_ne.mpr h4a, beq_eq_false_iff_ne.mpr h4b,
        beq_eq_false_iff_ne.mpr h4c, beq_eq_false_iff_ne.mpr h4d,
        beq_eq_false_iff_ne.mpr h4e]

theorem unknown_condition_returns_empty_witness :
    StockFilter.filter_by_ma volBoundaryStore 20 "sideways" "close" = [] ∧
    StockFilter.filter_by_macd volBoundaryStore "sideways" = [] ∧
    StockFilter.filter_by_kdj volBoundaryStore "sideways" = [] ∧
    StockFilter.filter_by_bollinger_bands volBoundaryStore "sideways" = [] :=
  unknown_condition_returns_empty volBoundaryStore 20 "close"
    "sideways" "sideways" "sideways" "sideways"
    (by decide) (by decide) (by decide) (by decide)

/-! ## Series index lemmas -/

section SeriesLemmas

variable {K : Type} [LinearOrderedField K]

theorem length_rollingMean (n : ℕ) (xs : Series K) :
    (rollingMean n xs).length = xs.length := by
  simp [rollingMean]

theorem length_diffSeries (s : Series K) : (diffSeries s).length = s.length := by
  simp [diffSeries]

theorem rollingMean_getElem {n : ℕ} {xs : Series K} {i : ℕ} (h : i < xs.length) :
    (rollingMean n xs)[i]? = some (if n ≤ i + 1 then
      (match seqOpt (windowAt n xs i) with
       | some ws => some (ws.sum / (n : K))
       | none => none)
      else none) := by
  rw [rollingMean, List.getElem?_map, List.getElem?_range h]
  rfl

theorem rollingMean_all_none {n : ℕ} {xs : Series K} (h : xs.length < n) :
    ∀ c ∈ rollingMean n xs, c = none := by
  intro c hc
  rcases List.mem_iff_getElem.mp hc with ⟨i, hi, hval⟩
  have hi2 : i < xs.length := by
    rw [length_rollingMean] at hi
    exact hi
  have hsome : (rollingMean n xs)[i]? = some c := by
    rw [List.getElem?_eq_getElem hi]
    exact congrArg some hval
  rw [rollingMean_getElem hi2] at hsome
  rw [if_neg (by omega)] at hsome
  exact (Option.some_inj.mp hsome).symm

theorem mem_rollingMean_of_getElem {n : ℕ} {xs : Series K} {i : ℕ} {c : Option K}
    (h : (rollingMean n xs)[i]? = some c) : c ∈ rollingMean n xs := by
  rcases List.getElem?_eq_some_iff.mp h with ⟨hi, hval⟩
  exact hval ▸ List.getElem_mem hi

theorem ewmGo_ne_none (α : K) :
    ∀ (xs : List K) (acc : K), ∀ c ∈ ewmGo α acc (xs.map some), c ≠ none := by
  intro xs
  induction xs with
  | nil => intro acc c hc; simp [ewmGo] at hc
  | cons x tl ih =>
    intro acc c hc
    simp only [List.map_cons, ewmGo] at hc
    rcases List.mem_cons.mp hc with rfl | hc
    · exact Option.some_ne_none _
    · exact ih _ c hc

theorem ewmSeries_map_some_ne_none (α : K) (close : List K) :
    ∀ c ∈ ewmSeries α (close.map some), c ≠ none := by
  match close with
  | [] => intro c hc; simp [ewmSeries] at hc
  | x :: tl =>
    intro c hc
    simp only [List.map_cons, ewmSeries] at hc
    rcases List.mem_cons.mp hc with rfl | hc
    · exact Option.some_ne_none _
    · exact ewmGo_ne_none α tl x c hc

end SeriesLemmas

/-! ## Claim C2 -/

/-- Claim C2 counterexample: a one-bar close series is shorter than the
period 5, yet the `EMA5` column carries a value at position 0 — pandas
`ewm(adjust=False)` seeds at the first value and is defined everywhere,
so EMA does not share the undefined-prefix behaviour of MA and RSI. -/
theorem ema_defined_on_short_series :
    ([some (10 : ℚ)].length < 5) ∧
    TechnicalIndicators.ema_col [some (10 : ℚ)] 5 = [some 10] := by
  constructor
  · decide
  · rfl

/-- Claim C2, amended: for every close series of length strictly less
than `n`, the `MA(n)` and `RSI(n)` columns are undefined at every
position; the `EMA(n)` column, by contrast, is defined at every
position regardless of the series length. -/
theorem short_series_ma_rsi_undefined (close : List ℚ) (n : ℕ)
    (h : close.length < n) :
    (∀ c ∈ TechnicalIndicators.ma_col (close.map some) n, c = none) ∧
    (∀ c ∈ TechnicalIndicators.rsi_col (close.map some) n, c = none) ∧
    (∀ c ∈ TechnicalIndicators.ema_col (close.map some) n, c ≠ none) := by
  have hlen : (close.map some : Series ℚ).length = close.length :=
    List.length_map close some
  refine ⟨?_, ?_, ?_⟩
  · exact rollingMean_all_none (by rw [hlen]; exact h)
  · intro c hc
    rcases List.mem_iff_getElem.mp hc with ⟨i, hi, hval⟩
    have hsome : (TechnicalIndicators.rsi_col (close.map some) n)[i]? = some c := by
      rw [List.getElem?_eq_getElem hi]
      exact congrArg some hval
    rw [TechnicalIndicators.rsi_col, List.getElem?_zipWith] at hsome
    have hiu : i < (TechnicalIndicators.rsi_avg_up (close.map some) n).length := by
      rw [TechnicalIndicators.rsi_col] at hi
      exact lt_of_lt_of_le hi (by rw [List.length_zipWith]; exact min_le_left _ _)
    have hu : (TechnicalIndicators.rsi_avg_up (close.map some) n)[i]? =
        some ((TechnicalIndicators.rsi_avg_up (close.map some) n).get ⟨i, hiu⟩) :=
      List.getElem?_eq_getElem hiu
    have hu_none : (TechnicalIndicators.rsi_avg_up (close.map some) n).get ⟨i, hiu⟩
        = none := by
      apply @rollingMean_all_none ℚ _ n (TechnicalIndicators.rsi_up (close.map some))
      · rw [TechnicalIndicators.rsi_up, List.length_map, length_diffSeries, hlen]
        exact h
      · exact List.get_mem _ _ _
    rw [hu, hu_none] at hsome
    rcases hd : (TechnicalIndicators.rsi_avg_down (close.map some) n)[i]? with _ | d
    · rw [hd] at hsome
      simp at hsome
    · rw [hd] at hsome
      simp only [TechnicalIndicators.rsiPoint] at hsome
      cases d <;> simpa using hsome.symm
  · intro c hc
    exact ewmSeries_map_some_ne_none _ close c hc

theorem short_series_ma_rsi_undefined_witness :
    ([(1 : ℚ), 2].length < 3) ∧
    (∀ c ∈ TechnicalIndicators.ma_col ([(1 : ℚ), 2].map some) 3, c = none) :=
  ⟨by decide, (short_series_ma_rsi_undefined [1, 2] 3 (by decide)).1⟩

/-! ## Claim C7 -/

theorem emaFrom_cons {K : Type} [LinearOrderedField K] (α acc x : K)
    (xs : List K) (i : ℕ) :
    emaFrom α acc (x :: xs) (i + 1) = emaFrom α (α * x + (1 - α) * acc) xs i := by
  induction i with
  | zero =>
    cases xs with
    | nil => simp [emaFrom]
    | cons z zs => simp [emaFrom]
  | succ i ih =>
    rw [emaFrom.eq_2, ih, emaFrom.eq_2, List.getElem?_cons_succ]

theorem ewmGo_getElem {K : Type} [LinearOrderedField K] (α : K) :
    ∀ (i : ℕ) (cs : List K) (acc : K),
      (ewmGo α acc (cs.map some))[i]? = (emaFrom α acc cs i).map some := by
  intro i
  induction i with
  | zero =>
    intro cs acc
    cases cs with
    | nil => simp [ewmGo, emaFrom]
    | cons x xs =>
      simp only [List.map_cons, ewmGo, emaFrom, List.getElem?_cons_zero,
        List.head?_cons, Option.map_some, Option.map_some']
      rw [add_comm]
  | succ i ih =>
    intro cs acc
    cases cs with
    | nil => simp [ewmGo, emaFrom]
    | cons x xs =>
      simp only [List.map_cons, ewmGo, List.getElem?_cons_succ]
      rw [ih, emaFrom_cons,
        show (1 - α) * acc + α * x = α * x + (1 - α) * acc from add_comm _ _]

theorem emaSpec_eq_emaFrom {K : Type} [LinearOrderedField K] (α c : K)
    (cs : List K) : ∀ i, emaSpec α (c :: cs) (i + 1) = emaFrom α c cs i := by
  intro i
  induction i with
  | zero =>
    cases cs with
    | nil => simp [emaSpec, emaFrom]
    | cons z zs => simp [emaSpec, emaFrom]
  | succ i ih =>
    rw [emaSpec.eq_2, ih, emaFrom.eq_2, List.getElem?_cons_succ]

/-- Claim C7: at every position, the `EMA(n)` column computed by
`ewm(span=n, adjust=False)` equals the specification's reference
recurrence `ema[0] = close[0]`,
`ema[i] = α·close[i] + (1−α)·ema[i−1]` with `α = 2/(n+1)`. -/
theorem ema_matches_spec_recurrence (close : List ℚ) (n : ℕ) (i : ℕ) :
    (TechnicalIndicators.ema_col (close.map some) n)[i]? =
      (emaSpec (2 / ((n : ℚ) + 1)) close i).map some := by
  match close, i with
  | [], 0 => simp [TechnicalIndicators.ema_col, ewmSeries, emaSpec]
  | [], i + 1 => simp [TechnicalIndicators.ema_col, ewmSeries, emaSpec]
  | c :: cs, 0 =>
    simp [TechnicalIndicators.ema_col, ewmSeries, emaSpec]
  | c :: cs, i + 1 =>
    rw [show (TechnicalIndicators.ema_col ((c :: cs).map some) n)[i + 1]? =
      (ewmGo (2 / ((n : ℚ) + 1)) c (cs.map some))[i]? by
        simp [TechnicalIndicators.ema_col, ewmSeries]]
    rw [ewmGo_getElem, emaSpec_eq_emaFrom]

/-! ## Claim C6 -/

theorem length_windowAt {K : Type} {n : ℕ} {xs : Series K} {i : ℕ}
    (h1 : i < xs.length) (h2 : n ≤ i + 1) : (windowAt n xs i).length = n := by
  simp only [windowAt, List.length_drop, List.length_take]
  omega

theorem windowAt_getElem {K : Type} {n : ℕ} {xs : Series K} {i k : ℕ}
    (h2 : n ≤ i + 1) (hk : k < n) :
    (windowAt n xs i)[k]? = xs[i + 1 - n + k]? := by
  rw [windowAt, List.getElem?_drop, List.getElem?_take, if_pos (by omega)]

section RsiLemmas

variable {K : Type} [LinearOrderedField K]

theorem seqOpt_eq_some_iff {l : Series K} {vs : List K} :
    seqOpt l = some vs ↔ l = vs.map some := by
  induction l generalizing vs with
  | nil => cases vs <;> simp [seqOpt]
  | cons o tl ih =>
    cases o with
    | none => cases vs <;> simp [seqOpt]
    | some x =>
      cases vs with
      | nil => simp [seqOpt]
      | cons v vt =>
        simp only [seqOpt, Option.map_eq_some', ih, List.map_cons, List.cons.injEq,
          Option.some.injEq]
        constructor
        · rintro ⟨ws, hws, rfl, rfl⟩
          exact ⟨rfl, hws⟩
        · rintro ⟨rfl, hws⟩
          exact ⟨vt, hws, rfl, rfl⟩

theorem seqOpt_exists_pos {l : Series K}
    (h : ∀ k, k < l.length → ∃ v, l[k]? = some (some v) ∧ 0 < v) :
    ∃ vs, seqOpt l = some vs ∧ vs.length = l.length ∧ ∀ v ∈ vs, 0 < v := by
  induction l with
  | nil => exact ⟨[], rfl, rfl, by simp⟩
  | cons o tl ih =>
    obtain ⟨v0, h0, hv0⟩ := h 0 (by simp)
    have ho : o = some v0 := by simpa using h0
    obtain ⟨vs, hseq, hlen, hpos⟩ := ih (fun k hk => by
      obtain ⟨v, hv, hvp⟩ := h (k + 1) (by simpa using hk)
      exact ⟨v, by simpa using hv, hvp⟩)
    subst ho
    refine ⟨v0 :: vs, ?_, by simp [hlen], ?_⟩
    · simp [seqOpt, hseq]
    · intro v hv
      rcases List.mem_cons.mp hv with rfl | hv
      · exact hv0
      · exact hpos v hv

theorem diffSeries_map_some {close : List K} {j : ℕ} (h : j + 1 < close.length) :
    (diffSeries (close.map some))[j + 1]? =
      some (some (close[j + 1] - close[j])) := by
  have hlen : (close.map some : Series K).length = close.length :=
    List.length_map _ _
  rw [diffSeries, List.getElem?_map, List.getElem?_range (by rw [hlen]; exact h)]
  show some (match ((close.map some : Series K))[j + 1]?.join,
      ((close.map some : Series K))[j]?.join with
    | some a, some b => some (a - b)
    | _, _ => none) = some (some (close[j + 1] - close[j]))
  rw [show ((close.map some : Series K))[j + 1]? = some (some close[j + 1]) from by
    rw [List.getElem?_map, List.getElem?_eq_getElem h]
    rfl]
  rw [show ((close.map some : Series K))[j]? = some (some close[j]) from by
    rw [List.getElem?_map, List.getElem?_eq_getElem (Nat.lt_of_succ_lt h)]
    rfl]
  simp

theorem rsi_down_getElem_succ {close : List K} {j : ℕ} (h : j + 1 < close.length)
    (hle : close[j] ≤ close[j + 1]) :
    (TechnicalIndicators.rsi_down (close.map some))[j + 1]? = some (some 0) := by
  rw [TechnicalIndicators.rsi_down, List.getElem?_map, diffSeries_map_some h]
  show some (some (if -(close[j + 1] - close[j]) < 0 then (0 : K)
    else -(close[j + 1] - close[j]))) = some (some 0)
  rcases eq_or_lt_of_le hle with he | hlt
  · rw [he, sub_self, neg_zero, if_neg (lt_irrefl 0)]
  · rw [if_pos (neg_lt_zero.mpr (sub_pos.mpr hlt))]

theorem rsi_up_getElem_succ {close : List K} {j : ℕ} (h : j + 1 < close.length)
    (hlt : close[j] < close[j + 1]) :
    (TechnicalIndicators.rsi_up (close.map some))[j + 1]? =
      some (some (close[j + 1] - close[j])) := by
  rw [TechnicalIndicators.rsi_up, List.getElem?_map, diffSeries_map_some h]
  show some (some (if close[j + 1] - close[j] < 0 then (0 : K)
    else close[j + 1] - close[j])) = some (some (close[j + 1] - close[j]))
  rw [if_neg (not_lt.mpr (le_of_lt (sub_pos.mpr hlt)))]

theorem rsi_up_getElem_succ_flat {close : List K} {j : ℕ}
    (h : j + 1 < close.length) (he : close[j] = close[j + 1]) :
    (TechnicalIndicators.rsi_up (close.map some))[j + 1]? = some (some 0) := by
  rw [TechnicalIndicators.rsi_up, List.getElem?_map, diffSeries_map_some h]
  show some (some (if close[j + 1] - close[j] < 0 then (0 : K)
    else close[j + 1] - close[j])) = some (some 0)
  rw [← he, sub_self, if_neg (lt_irrefl 0)]

theorem length_rsi_down (s : Series K) :
    (TechnicalIndicators.rsi_down s).length = s.length := by
  rw [TechnicalIndicators.rsi_down, List.length_map, length_diffSeries]

theorem length_rsi_up (s : Series K) :
    (TechnicalIndicators.rsi_up s).length = s.length := by
  rw [TechnicalIndicators.rsi_up, List.length_map, length_diffSeries]

theorem rsi_avg_down_of_window_zero {close : List K} {n i : ℕ}
    (_hn : 1 ≤ n) (hni : n ≤ i) (hi : i < close.length)
    (hwin : ∀ j, j + 1 < close.length → i + 1 - n ≤ j + 1 → j + 1 ≤ i →
      (TechnicalIndicators.rsi_down (close.map some))[j + 1]? = some (some 0)) :
    (TechnicalIndicators.rsi_avg_down (close.map some) n)[i]? = some (some 0) := by
  have hdlen : (TechnicalIndicators.rsi_down (close.map some) : Series K).length
      = close.length := by
    rw [length_rsi_down, List.length_map]
  rw [TechnicalIndicators.rsi_avg_down,
    rollingMean_getElem (by rw [hdlen]; exact hi), if_pos (by omega)]
  have hw : windowAt n (TechnicalIndicators.rsi_down (close.map some)) i =
      (List.replicate n (0 : K)).map some := by
    apply List.ext_getElem?
    intro k
    by_cases hk : k < n
    · rw [windowAt_getElem (by omega) hk, List.map_replicate,
        List.getElem?_replicate, if_pos hk,
        show i + 1 - n + k = (i - n + k) + 1 from by omega]
      exact hwin (i - n + k) (by omega) (by omega) (by omega)
    · rw [List.getElem?_eq_none (by
          rw [length_windowAt (by rw [hdlen]; exact hi) (by omega)]; omega),
        List.getElem?_eq_none (by
          rw [List.length_map, List.length_replicate]; omega)]
  rw [hw, seqOpt_eq_some_iff.mpr rfl]
  simp [List.sum_replicate]

theorem rsi_avg_up_of_window_zero {close : List K} {n i : ℕ}
    (_hn : 1 ≤ n) (hni : n ≤ i) (hi : i < close.length)
    (hwin : ∀ j, j + 1 < close.length → i + 1 - n ≤ j + 1 → j + 1 ≤ i →
      (TechnicalIndicators.rsi_up (close.map some))[j + 1]? = some (some 0)) :
    (TechnicalIndicators.rsi_avg_up (close.map some) n)[i]? = some (some 0) := by
  have hulen : (TechnicalIndicators.rsi_up (close.map some) : Series K).length
      = close.length := by
    rw [length_rsi_up, List.length_map]
  rw [TechnicalIndicators.rsi_avg_up,
    rollingMean_getElem (by rw [hulen]; exact hi), if_pos (by omega)]
  have hw : windowAt n (TechnicalIndicators.rsi_up (close.map some)) i =
      (List.replicate n (0 : K)).map some := by
    apply List.ext_getElem?
    intro k
    by_cases hk : k < n
    · rw [windowAt_getElem (by omega) hk, List.map_replicate,
        List.getElem?_replicate, if_pos hk,
        show i + 1 - n + k = (i - n + k) + 1 from by omega]
      exact hwin (i - n + k) (by omega) (by omega) (by omega)
    · rw [List.getElem?_eq_none (by
          rw [length_windowAt (by rw [hulen]; exact hi) (by omega)]; omega),
        List.getElem?_eq_none (by
          rw [List.length_map, List.length_replicate]; omega)]
  rw [hw, seqOpt_eq_some_iff.mpr rfl]
  simp [List.sum_replicate]

end RsiLemmas

/-- Claim C6 counterexample: on the flat 7-bar close series (all closes
`10`), `avg_down` at position 6 is exactly 0, yet `RSI(6)` at that
position is missing (`NaN` from the float `0/0`), not `100` — the
claimed `avg_down = 0 → RSI = 100` fails when `avg_up` is also 0. -/
theorem rsi_flat_series_undefined :
    (TechnicalIndicators.rsi_avg_down (List.replicate 7 (some (10 : ℚ))) 6)[6]? =
      some (some 0) ∧
    (TechnicalIndicators.rsi_col (List.replicate 7 (some (10 : ℚ))) 6)[6]? =
      some none := by
  have hrepl : (List.replicate 7 (some (10 : ℚ)) : Series ℚ) =
      (List.replicate 7 (10 : ℚ)).map some := by
    rw [List.map_replicate]
  have hflat : ∀ (j : ℕ) (hj : j + 1 < (List.replicate 7 (10 : ℚ)).length),
      (List.replicate 7 (10 : ℚ))[j] = (List.replicate 7 (10 : ℚ))[j + 1] := by
    intro j hj
    rw [List.getElem_replicate, List.getElem_replicate]
  have hdown : (TechnicalIndicators.rsi_avg_down
      ((List.replicate 7 (10 : ℚ)).map some) 6)[6]? = some (some 0) := by
    apply rsi_avg_down_of_window_zero (by omega) (by omega) (by simp)
    intro j hj _ _
    exact rsi_down_getElem_succ hj (le_of_eq (hflat j hj))
  have hup : (TechnicalIndicators.rsi_avg_up
      ((List.replicate 7 (10 : ℚ)).map some) 6)[6]? = some (some 0) := by
    apply rsi_avg_up_of_window_zero (by omega) (by omega) (by simp)
    intro j hj _ _
    exact rsi_up_getElem_succ_flat hj (hflat j hj)
  rw [hrepl]
  refine ⟨hdown, ?_⟩
  rw [TechnicalIndicators.rsi_col, List.getElem?_zipWith, hup, hdown]
  simp [TechnicalIndicators.rsiPoint]

/-- Claim C6, amended: when `avg_down` is exactly 0 at a position and
`avg_up` is nonzero there, the RSI computation yields exactly 100 (the
float quotient is `±∞` and `100 − 100/(1+∞) = 100`) with no division
fault; in particular, on a strictly increasing close series `RSI(n)` is
100 at every position from the `n`-th delta onward.  When `avg_up` is
also 0 (a flat window), the float `0/0` is `NaN` and the RSI cell is
missing instead — see the counterexample. -/
theorem rsi_zero_avg_down :
    (∀ (s : Series ℚ) (n i : ℕ) (u : ℚ),
      (TechnicalIndicators.rsi_avg_down s n)[i]? = some (some 0) →
      (TechnicalIndicators.rsi_avg_up s n)[i]? = some (some u) → u ≠ 0 →
      (TechnicalIndicators.rsi_col s n)[i]? = some (some 100)) ∧
    (∀ (close : List ℚ) (n i : ℕ), 1 ≤ n → n ≤ i → i < close.length →
      close.Chain' (· < ·) →
      (TechnicalIndicators.rsi_col (close.map some) n)[i]? = some (some 100)) := by
  have hpoint : ∀ (s : Series ℚ) (n i : ℕ) (u : ℚ),
      (TechnicalIndicators.rsi_avg_down s n)[i]? = some (some 0) →
      (TechnicalIndicators.rsi_avg_up s n)[i]? = some (some u) → u ≠ 0 →
      (TechnicalIndicators.rsi_col s n)[i]? = some (some 100) := by
    intro s n i u hdown hup hu
    rw [TechnicalIndicators.rsi_col, List.getElem?_zipWith, hup, hdown]
    simp [TechnicalIndicators.rsiPoint, hu]
  refine ⟨hpoint, ?_⟩
  intro close n i hn hni hi hmono
  have hmono2 : ∀ (j : ℕ) (hj : j + 1 < close.length),
      close[j] < close[j + 1] := by
    intro j hj
    have h := List.chain'_iff_get.mp hmono j (by omega)
    simpa [List.get_eq_getElem] using h
  have hdown : (TechnicalIndicators.rsi_avg_down (close.map some) n)[i]? =
      some (some 0) := by
    apply rsi_avg_down_of_window_zero hn hni hi
    intro j hj _ _
    exact rsi_down_getElem_succ hj (le_of_lt (hmono2 j hj))
  have hulen : (TechnicalIndicators.rsi_up (close.map some) : Series ℚ).length
      = close.length := by
    rw [length_rsi_up, List.length_map]
  obtain ⟨vs, hseq, hlenvs, hpos⟩ :=
    @seqOpt_exists_pos ℚ _ (windowAt n (TechnicalIndicators.rsi_up
      (close.map some)) i) (by
      intro k hk
      rw [length_windowAt (by rw [hulen]; exact hi) (by omega)] at hk
      rw [windowAt_getElem (by omega) hk,
        show i + 1 - n + k = (i - n + k) + 1 from by omega]
      exact ⟨close[i - n + k + 1] - close[i - n + k],
        rsi_up_getElem_succ (by omega) (hmono2 _ (by omega)),
        sub_pos.mpr (hmono2 _ (by omega))⟩)
  have hup : (TechnicalIndicators.rsi_avg_up (close.map some) n)[i]? =
      some (some (vs.sum / (n : ℚ))) := by
    rw [TechnicalIndicators.rsi_avg_up,
      rollingMean_getElem (by rw [hulen]; exact hi), if_pos (by omega), hseq]
  have hvslen : vs.length = n := by
    rw [hlenvs, length_windowAt (by rw [hulen]; exact hi) (by omega)]
  have hsum : 0 < vs.sum := by
    apply List.sum_pos vs hpos
    intro e
    rw [e] at hvslen
    simp at hvslen
    omega
  exact hpoint _ n i _ hdown hup
    (ne_of_gt (div_pos hsum (by exact_mod_cast Nat.pos_of_ne_zero (by omega))))

theorem rsi_zero_avg_down_witness :
    List.Chain' (· < ·) [(1 : ℚ), 2, 3, 4, 5, 6, 7, 8] ∧
    (TechnicalIndicators.rsi_col
      ([(1 : ℚ), 2, 3, 4, 5, 6, 7, 8].map some) 6)[7]? = some (some 100) := by
  have hchain : List.Chain' (· < ·) [(1 : ℚ), 2, 3, 4, 5, 6, 7, 8] := by
    norm_num [List.chain'_cons]
  exact ⟨hchain, rsi_zero_avg_down.2 [(1 : ℚ), 2, 3, 4, 5, 6, 7, 8] 6 7
    (by norm_num) (by norm_num) (by norm_num) hchain⟩

end GoldTarget
